/-
Verification of the AQT (accurate quantized training) common utilities
against their natural-language specification.

The numeric routines in `aqt/tensorflow/aqt_common.py` compute over Python
floats; for the bit widths admitted here (bits ≤ 23) every intermediate
value is exactly representable, so the embedding uses exact rational
arithmetic (ℚ).  Fallible Python functions (those that may raise) are
embedded as `Option`/sum-typed results.
-/
import Mathlib

namespace Aqt

/-- Integer quantization configuration, from `aqt_config.IntQuantConfig`
(spec §3): a bit width and whether zero must be exactly representable. -/
structure IntQuantConfig where
  bits : Nat
  preserve_zero : Bool
deriving DecidableEq

/-- Modelled from the spec: `aqt_config.IntQuantConfig.validate` is not under
`src/`; the spec (§3) requires `bits` to be a positive integer.  Returns
`true` when the config passes validation. -/
def IntQuantConfig.validate (c : IntQuantConfig) : Bool :=
  1 ≤ c.bits

/-- The bucket count of `get_clip_bound`: `2.0**bits`, minus one when
`preserve_zero` is set. -/
def bucket_count (c : IntQuantConfig) : ℚ :=
  let bc : ℚ := 2 ^ c.bits
  if c.preserve_zero then bc - 1 else bc

/-- `aqt_common.get_clip_bound`: validates the config, asserts
`bits ≤ 23`, and returns `bucket_count / 2`.  `none` models the raised
`ConfigError`/`AssertionError`. -/
def get_clip_bound (c : IntQuantConfig) : Option ℚ :=
  if c.validate then
    if c.bits ≤ 23 then some (bucket_count c / 2) else none
  else none

/-- `aqt_common.safe_clip_bound`: `get_clip_bound(config) - 2.0**(-20 + bits)`,
propagating any error from `get_clip_bound`. -/
def safe_clip_bound (c : IntQuantConfig) : Option ℚ :=
  (get_clip_bound c).map fun cb => cb - (2 : ℚ) ^ (-20 + (c.bits : ℤ))

/-- `aqt_common.check_shapes_conformal`.  Shape entries are `Option Int`
(`none` models Python `None`).  The embedded body mirrors the source line by
line: `expected_shape = [ax if ax is not None else given for ax, given in
zip(actual, expected)]` — note the comprehension draws `ax` from `actual`
and `given` from `expected` — then compares rank and `actual ==
expected_shape`.  `.error` models the raised `ValueError`. -/
def check_shapes_conformal (actual expected : List (Option Int)) :
    Except String Unit :=
  let expected_shape := (actual.zip expected).map fun p =>
    match p.1 with
    | some ax => some ax
    | none => p.2
  let compatible_rank : Bool := actual.length == expected.length
  let compatible_size : Bool := actual == expected_shape
  if !compatible_rank || !compatible_size then
    Except.error "actual shape must be compatible with expected"
  else Except.ok ()

/-- Outcome of `aqt_common.validate_conv_contraction`: normal return, a
raised `aqt_config.ConfigError` (carrying the offending axis name), or the
`ValueError` Python's `str.index` raises when the dimension character is
absent from `data_format`. -/
inductive ConvCheck where
  | ok : ConvCheck
  | configError : String → ConvCheck
  | valueError : ConvCheck
deriving DecidableEq

/-- The `for axis_name, dim in zip(axis_names, dims)` loop body of
`validate_conv_contraction`: `axis = data_format.index(dim)`, and a
`ConfigError` is raised as soon as `axis not in stats_axes`. -/
def contraction_loop (stats_axes : List Nat) (data_format : List Char) :
    List (String × Char) → ConvCheck
  | [] => ConvCheck.ok
  | (axis_name, dim) :: rest =>
    match data_format.findIdx? (· == dim) with
    | none => ConvCheck.valueError
    | some axis =>
      if axis ∈ stats_axes then contraction_loop stats_axes data_format rest
      else ConvCheck.configError axis_name

/-- Statistics configuration, from `aqt_config.StatsConfig` (spec §3).
Only `share_stats_axes` is read by `validate_conv_contraction`; the other
fields drive the `Stats` accumulator. -/
structure StatsConfig where
  share_stats_axes : List Nat
  lp_order : Nat
  ema_update_count : Option Nat
deriving DecidableEq

/-- `aqt_common.validate_conv_contraction`: checks that the height, width
and feature-dimension axes of `data_format` all appear in
`config.share_stats_axes`.  (The source's `config_path` argument feeds only
the error message and is not modelled.) -/
def validate_conv_contraction (config : StatsConfig) (data_format : List Char)
    (feature_dim_char : Char) : ConvCheck :=
  contraction_loop config.share_stats_axes data_format
    [("height", 'H'), ("width", 'W'), ("channel", feature_dim_char)]

/-! ### Straight-through estimator

`aqt.jax.aqt_tensor.pass_through` is exercised by `aqt_tensor_test.py`
but its definition is not part of the sources here; spec §4.5 mandates the
stop-gradient implementation `x + stop_gradient(fn(x) - x)`.  We model
differentiation by forward-mode dual numbers: a value together with its
tangent (derivative seed). -/

/-- A forward-mode dual number: a value and its tangent. -/
structure Dual where
  val : ℚ
  tang : ℚ
deriving DecidableEq

/-- Dual-number addition (tangents add). -/
def Dual.add (a b : Dual) : Dual := ⟨a.val + b.val, a.tang + b.tang⟩

/-- Dual-number subtraction (tangents subtract). -/
def Dual.sub (a b : Dual) : Dual := ⟨a.val - b.val, a.tang - b.tang⟩

/-- Modelled from the spec: `jax.lax.stop_gradient` as used by
`aqt.jax.aqt_tensor` — the identity on values with zero derivative. -/
def stop_gradient (a : Dual) : Dual := ⟨a.val, 0⟩

/-- Modelled from the spec: `aqt.jax.aqt_tensor.pass_through` is not under
`src/` (only its test is); spec §4.5 specifies the implementation
`x + stop_gradient(fn(x) - x)`. -/
def pass_through (x : Dual) (fn : Dual → Dual) : Dual :=
  x.add (stop_gradient ((fn x).sub x))

/-! ### Stats accumulator and quantizer state machine

`aqt.jax.aqt_tensor` (`Stats`, `TensorQuantizer`) is exercised by
`aqt_tensor_test.py` but its definition is not part of the sources here, so
the accumulator and the update state machine are modelled from spec
§§3, 4.2–4.4.  Tensors are flattened to lists of rationals with all axes
shared, so each accumulator is a scalar. -/

/-- Modelled from the spec (§3): the running-statistics accumulator
`aqt.jax.aqt_tensor.Stats` — `sum_of_ones`, `sum_of_vals`,
`sum_of_l1_vals`, `sum_of_lp_vals`, plus the EMA step counter. -/
structure Stats where
  sum_of_ones : ℚ
  sum_of_vals : ℚ
  sum_of_l1_vals : ℚ
  sum_of_lp_vals : ℚ
  ema_count : Nat
deriving DecidableEq

/-- Modelled from the spec (§4.2): `Stats.init_stats` — a zero state. -/
def init_stats : Stats := ⟨0, 0, 0, 0, 0⟩

/-- Weighted sum `Σ f(sampleᵢ) * weightᵢ` over paired entries, the reduction
each accumulator of `with_update` performs. -/
def wsum (f : ℚ → ℚ) (sample weight : List ℚ) : ℚ :=
  ((sample.zip weight).map fun p => f p.1 * p.2).sum

/-- Modelled from the spec (§4.2): `Stats.with_update` — accumulate
`sum(weight)`, `sum(sample*weight)`, `sum(|sample|*weight)`,
`sum(|sample|^lp_order * weight)`; with `ema_update_count` set, instead
blend the batch statistics in with decay factor `1 - 1/count`, the step
counter being capped at `ema_update_count`. -/
def with_update (cfg : StatsConfig) (s : Stats) (sample weight : List ℚ) :
    Stats :=
  let bOnes := weight.sum
  let bVals := wsum id sample weight
  let bL1 := wsum (fun x => |x|) sample weight
  let bLp := wsum (fun x => |x| ^ cfg.lp_order) sample weight
  match cfg.ema_update_count with
  | none =>
    ⟨s.sum_of_ones + bOnes, s.sum_of_vals + bVals, s.sum_of_l1_vals + bL1,
     s.sum_of_lp_vals + bLp, s.ema_count + 1⟩
  | some n =>
    let cnt := min (s.ema_count + 1) n
    let d : ℚ := 1 - 1 / (cnt : ℚ)
    ⟨d * s.sum_of_ones + (1 - d) * bOnes, d * s.sum_of_vals + (1 - d) * bVals,
     d * s.sum_of_l1_vals + (1 - d) * bL1,
     d * s.sum_of_lp_vals + (1 - d) * bLp, cnt⟩

/-- Modelled from the spec (§4.2): `Stats.max_dev` — the mean-absolute-value
proxy `sum_of_l1_vals / sum_of_ones`, returning 0 instead of dividing when
no observations have been folded in. -/
def max_dev (s : Stats) : ℚ :=
  if s.sum_of_ones = 0 then 0 else s.sum_of_l1_vals / s.sum_of_ones

/-- The value `safe_clip_bound` yields on a validated config, as a total
function (spec §4.4 makes an invalid config a fatal programming error before
calibration runs). -/
def safe_bound_val (c : IntQuantConfig) : ℚ :=
  bucket_count c / 2 - (2 : ℚ) ^ (-20 + (c.bits : ℤ))

/-- Modelled from the spec (§4.3): the scale calibrator —
`max_dev() / safe_clip_bound(int_config)`, falling back to scale 1 when
`max_dev()` is zero. -/
def calibrate (s : Stats) (c : IntQuantConfig) : ℚ :=
  let md := max_dev s
  if md = 0 then 1 else md / safe_bound_val c

/-- Modelled from the spec (§4.4): `to_quant` on one element —
`round(clip(x / scale, -safe_bound, safe_bound))`. -/
def to_quant (c : IntQuantConfig) (scale x : ℚ) : ℚ :=
  (round (max (-(safe_bound_val c)) (min (safe_bound_val c) (x / scale))) : ℤ)

/-- Modelled from the spec (§3): the `TensorQuantizer` state — owned
`Stats`, last-computed scale, `last_update` step counter and the cached
quantized tensor. -/
structure TensorQuantizer where
  stats : Stats
  scale : ℚ
  last_update : ℤ
  quantized_variable : List ℚ
deriving DecidableEq

/-- Modelled from the spec (§4.4): `TensorQuantizer.update(sample, weight,
event_count)` — a no-op when `event_count` equals `last_update`; otherwise
folds the sample into `Stats`, recomputes the scale, sets `last_update` and
replaces the cached quantized variable. -/
def update (cfg : StatsConfig) (c : IntQuantConfig) (q : TensorQuantizer)
    (sample weight : List ℚ) (event_count : ℤ) : TensorQuantizer :=
  if event_count = q.last_update then q
  else
    let stats := with_update cfg q.stats sample weight
    let scale := calibrate stats c
    ⟨stats, scale, event_count, sample.map (to_quant c scale)⟩

/-! ## Theorems -/

/-- Zipping against any list and restoring the first component is the
identity when every entry of the first list is `some` and the lengths
agree — the `expected_shape` comprehension of `check_shapes_conformal`
degenerates to `actual` itself. -/
lemma zip_restore_of_isSome :
    ∀ (a e : List (Option Int)), a.length = e.length → (∀ x ∈ a, x.isSome) →
      ((a.zip e).map fun p =>
        match p.1 with
        | some ax => some ax
        | none => p.2) = a
  | [], [], _, _ => rfl
  | [], _ :: _, hlen, _ => by simp at hlen
  | _ :: _, [], hlen, _ => by simp at hlen
  | x :: xs, y :: ys, hlen, hk => by
    obtain ⟨v, rfl⟩ := Option.isSome_iff_exists.mp (hk x (List.mem_cons_self x xs))
    have tail := zip_restore_of_isSome xs ys (by simpa using hlen)
      (fun z hz => hk z (List.mem_cons_of_mem _ hz))
    simp [tail]

/-- C1: the spec and the source's own docstring demand that
`check_shapes_conformal` raise `ValueError` exactly when ranks differ or a
non-`None` dimension of `expected` disagrees with `actual`; in particular
`actual=[2,4]` vs `expected=[2,3]` must raise.  The code's comprehension
draws the wildcard test from `actual` instead of `expected`
(`ax if ax is not None else given for ax, given in zip(actual, expected)`),
so that call returns normally: the middle conjunct below exhibits the
divergence, while the other two inputs of the claim behave as documented. -/
theorem check_shapes_conformal_c1_divergence :
    check_shapes_conformal [some 2, some 3] [some 2, none] = Except.ok () ∧
    check_shapes_conformal [some 2, some 4] [some 2, some 3] = Except.ok () ∧
    check_shapes_conformal [some 2] [some 2, some 3] =
      Except.error "actual shape must be compatible with expected" :=
  ⟨rfl, rfl, rfl⟩

/-- C10: whenever `actual` and `expected` have equal length and every entry
of `actual` is a known integer (no `None`), `check_shapes_conformal`
returns without raising, whatever the entries of `expected` are: the
`None`-as-wildcard test is applied to `actual`'s entries, not
`expected`'s. -/
theorem check_shapes_conformal_known_actual_ok
    (actual expected : List (Option Int))
    (hlen : actual.length = expected.length)
    (hknown : ∀ x ∈ actual, x.isSome) :
    check_shapes_conformal actual expected = Except.ok () := by
  unfold check_shapes_conformal
  simp [zip_restore_of_isSome actual expected hlen hknown, hlen]

/-- Witness for C10 at `actual=[1,5]`, `expected=[9,7]`. -/
theorem check_shapes_conformal_known_actual_ok_witness :
    ([some 1, some 5] : List (Option Int)).length =
      ([some 9, some 7] : List (Option Int)).length ∧
    (∀ x ∈ ([some 1, some 5] : List (Option Int)), x.isSome) ∧
    check_shapes_conformal [some 1, some 5] [some 9, some 7] = Except.ok () :=
  ⟨rfl, by decide,
   check_shapes_conformal_known_actual_ok [some 1, some 5] [some 9, some 7]
     rfl (by decide)⟩

/-- C4: on a valid config with `1 ≤ bits ≤ 23`, `get_clip_bound` returns
`bucket_count / 2` with `bucket_count = 2^bits - (1 if preserve_zero else
0)`. -/
theorem get_clip_bound_eq (c : IntQuantConfig)
    (h1 : 1 ≤ c.bits) (h23 : c.bits ≤ 23) :
    get_clip_bound c =
      some ((2 ^ c.bits - if c.preserve_zero then 1 else 0) / 2) := by
  unfold get_clip_bound bucket_count IntQuantConfig.validate
  cases c.preserve_zero <;> simp [h1, h23]

/-- Witness for C4 at `bits = 8`, `preserve_zero = true`. -/
theorem get_clip_bound_eq_witness :
    1 ≤ (8 : Nat) ∧ (8 : Nat) ≤ 23 ∧
    get_clip_bound ⟨8, true⟩ =
      some (((2 : ℚ) ^ (8 : Nat) - if true then 1 else 0) / 2) :=
  ⟨by decide, by decide, get_clip_bound_eq ⟨8, true⟩ (by decide) (by decide)⟩

/-- C5: `get_clip_bound` errors (never returns a bound) when `bits > 23`,
and returns normally on every valid config with `1 ≤ bits ≤ 23`. -/
theorem get_clip_bound_bits_guard (c : IntQuantConfig) :
    (23 < c.bits → get_clip_bound c = none) ∧
    (1 ≤ c.bits → c.bits ≤ 23 → (get_clip_bound c).isSome = true) := by
  constructor
  · intro h
    unfold get_clip_bound IntQuantConfig.validate
    simp [Nat.not_le.mpr h, Nat.one_le_iff_ne_zero.mpr (by omega : c.bits ≠ 0)]
  · intro h1 h23
    unfold get_clip_bound IntQuantConfig.validate
    simp [h1, h23]

/-- Witness for C5 at `bits = 24` (rejected) and `bits = 8` (accepted). -/
theorem get_clip_bound_bits_guard_witness :
    get_clip_bound ⟨24, true⟩ = none ∧
    (get_clip_bound ⟨8, false⟩).isSome = true :=
  ⟨(get_clip_bound_bits_guard ⟨24, true⟩).1 (by decide),
   (get_clip_bound_bits_guard ⟨8, false⟩).2 (by decide) (by decide)⟩

/-- C3: on a valid config with `1 ≤ bits ≤ 23`, `safe_clip_bound` returns
`get_clip_bound - 2^(bits-20)` (exact arithmetic), a value strictly below
the display bound `get_clip_bound = bucket_count / 2`. -/
theorem safe_clip_bound_eq (c : IntQuantConfig)
    (h1 : 1 ≤ c.bits) (h23 : c.bits ≤ 23) :
    get_clip_bound c = some (bucket_count c / 2) ∧
    safe_clip_bound c =
      some (bucket_count c / 2 - (2 : ℚ) ^ ((c.bits : ℤ) - 20)) ∧
    bucket_count c / 2 - (2 : ℚ) ^ ((c.bits : ℤ) - 20) < bucket_count c / 2 := by
  have hexp : ((c.bits : ℤ) - 20) = (-20 + (c.bits : ℤ)) := by ring
  have hcb : get_clip_bound c = some (bucket_count c / 2) := by
    unfold get_clip_bound IntQuantConfig.validate
    simp [h1, h23]
  refine ⟨hcb, ?_, ?_⟩
  · unfold safe_clip_bound
    rw [hcb, hexp]
    rfl
  · have hpos : (0 : ℚ) < (2 : ℚ) ^ ((c.bits : ℤ) - 20) := by positivity
    linarith

/-- Witness for C3 at `bits = 8`, `preserve_zero = true`. -/
theorem safe_clip_bound_eq_witness :
    get_clip_bound ⟨8, true⟩ = some (bucket_count ⟨8, true⟩ / 2) ∧
    safe_clip_bound ⟨8, true⟩ =
      some (bucket_count ⟨8, true⟩ / 2 - (2 : ℚ) ^ (((8 : Nat) : ℤ) - 20)) ∧
    bucket_count ⟨8, true⟩ / 2 - (2 : ℚ) ^ (((8 : Nat) : ℤ) - 20) <
      bucket_count ⟨8, true⟩ / 2 :=
  safe_clip_bound_eq ⟨8, true⟩ (by decide) (by decide)

/-- Counterexample to C2 at `bits = 10`, `preserve_zero = true`: the offset
between display and safe bound is `2^(10-20) = 1/1024`, which is not
strictly smaller than `2^(-10) = 1/1024`. -/
theorem clip_bound_gap_counterexample :
    get_clip_bound ⟨10, true⟩ = some (1023 / 2) ∧
    safe_clip_bound ⟨10, true⟩ = some (1023 / 2 - 1 / 1024) ∧
    ¬ (1023 / 2 - (1023 / 2 - 1 / 1024) < (2 : ℚ) ^ (-((10 : Nat) : ℤ))) := by
  refine ⟨?_, ?_, ?_⟩
  · unfold get_clip_bound bucket_count IntQuantConfig.validate
    norm_num
  · unfold safe_clip_bound get_clip_bound bucket_count IntQuantConfig.validate
    norm_num
  · norm_num

/-- C2 (amended): on a valid config with `1 ≤ bits ≤ 23` the offset
`get_clip_bound - safe_clip_bound` equals `2^(bits-20)` exactly, and it is
smaller than `2^(-bits)` precisely when `bits ≤ 9`. -/
theorem clip_bound_gap_iff (c : IntQuantConfig)
    (h1 : 1 ≤ c.bits) (h23 : c.bits ≤ 23) :
    get_clip_bound c = some (bucket_count c / 2) ∧
    safe_clip_bound c = some (safe_bound_val c) ∧
    bucket_count c / 2 - safe_bound_val c = (2 : ℚ) ^ ((c.bits : ℤ) - 20) ∧
    (bucket_count c / 2 - safe_bound_val c < (2 : ℚ) ^ (-(c.bits : ℤ)) ↔
      c.bits ≤ 9) := by
  have hcb : get_clip_bound c = some (bucket_count c / 2) := by
    unfold get_clip_bound IntQuantConfig.validate
    simp [h1, h23]
  have hgap : bucket_count c / 2 - safe_bound_val c =
      (2 : ℚ) ^ ((c.bits : ℤ) - 20) := by
    unfold safe_bound_val
    have hexp : ((c.bits : ℤ) - 20) = (-20 + (c.bits : ℤ)) := by ring
    rw [hexp]
    ring
  refine ⟨hcb, ?_, hgap, ?_⟩
  · unfold safe_clip_bound safe_bound_val
    rw [hcb]
    rfl
  · rw [hgap, zpow_lt_zpow_iff_right₀ (by norm_num : (1 : ℚ) < 2)]
    omega

/-- Witness for C2's amended theorem at `bits = 8`,
`preserve_zero = true`. -/
theorem clip_bound_gap_iff_witness :
    get_clip_bound ⟨8, true⟩ = some (bucket_count ⟨8, true⟩ / 2) ∧
    safe_clip_bound ⟨8, true⟩ = some (safe_bound_val ⟨8, true⟩) ∧
    bucket_count ⟨8, true⟩ / 2 - safe_bound_val ⟨8, true⟩ =
      (2 : ℚ) ^ (((8 : Nat) : ℤ) - 20) ∧
    (bucket_count ⟨8, true⟩ / 2 - safe_bound_val ⟨8, true⟩ <
        (2 : ℚ) ^ (-((8 : Nat) : ℤ)) ↔ (8 : Nat) ≤ 9) :=
  clip_bound_gap_iff ⟨8, true⟩ (by decide) (by decide)

/-- C6: when `data_format` contains `'H'`, `'W'` and the feature-dimension
character (their first occurrences at positions `iH`, `iW`, `iC`),
`validate_conv_contraction` returns normally exactly when all three
contraction axes are members of `share_stats_axes`, and raises
`ConfigError` exactly when at least one of them is missing. -/
theorem validate_conv_contraction_iff (config : StatsConfig)
    (df : List Char) (fc : Char) (iH iW iC : Nat)
    (hH : df.findIdx? (· == 'H') = some iH)
    (hW : df.findIdx? (· == 'W') = some iW)
    (hC : df.findIdx? (· == fc) = some iC) :
    (validate_conv_contraction config df fc = ConvCheck.ok ↔
      iH ∈ config.share_stats_axes ∧ iW ∈ config.share_stats_axes ∧
        iC ∈ config.share_stats_axes) ∧
    ((∃ name, validate_conv_contraction config df fc =
        ConvCheck.configError name) ↔
      ¬ (iH ∈ config.share_stats_axes ∧ iW ∈ config.share_stats_axes ∧
        iC ∈ config.share_stats_axes)) := by
  unfold validate_conv_contraction
  simp only [contraction_loop, hH, hW, hC]
  by_cases hh : iH ∈ config.share_stats_axes <;>
    by_cases hw : iW ∈ config.share_stats_axes <;>
      by_cases hc : iC ∈ config.share_stats_axes <;>
        simp [hh, hw, hc]

/-- Witness for C6 on `data_format = "NHWC"`, feature char `'C'`,
`share_stats_axes = [1, 2, 3]` (all contraction axes shared). -/
theorem validate_conv_contraction_iff_witness :
    (['N', 'H', 'W', 'C'].findIdx? (· == 'H') = some 1) ∧
    (['N', 'H', 'W', 'C'].findIdx? (· == 'W') = some 2) ∧
    (['N', 'H', 'W', 'C'].findIdx? (· == 'C') = some 3) ∧
    ((validate_conv_contraction ⟨[1, 2, 3], 1, none⟩ ['N', 'H', 'W', 'C'] 'C' =
        ConvCheck.ok ↔
      1 ∈ [1, 2, 3] ∧ 2 ∈ [1, 2, 3] ∧ 3 ∈ ([1, 2, 3] : List Nat)) ∧
    ((∃ name,
        validate_conv_contraction ⟨[1, 2, 3], 1, none⟩ ['N', 'H', 'W', 'C'] 'C' =
          ConvCheck.configError name) ↔
      ¬ (1 ∈ [1, 2, 3] ∧ 2 ∈ [1, 2, 3] ∧ 3 ∈ ([1, 2, 3] : List Nat)))) :=
  ⟨by decide, by decide, by decide,
   validate_conv_contraction_iff ⟨[1, 2, 3], 1, none⟩ ['N', 'H', 'W', 'C'] 'C'
     1 2 3 (by decide) (by decide) (by decide)⟩

/-- C7: for every input and every wrapped function, the straight-through
estimator `pass_through` returns `fn(x)` exactly on the forward pass, while
its derivative is that of the identity — the output tangent equals the
input tangent, so the gradient with respect to `x` (tangent seeded at 1) is
exactly 1 whatever `fn`'s own derivative is. -/
theorem pass_through_ste (fn : Dual → Dual) :
    (∀ x : Dual, (pass_through x fn).val = (fn x).val) ∧
    (∀ x : Dual, (pass_through x fn).tang = x.tang) ∧
    (∀ v : ℚ, (pass_through ⟨v, 1⟩ fn).tang = 1) := by
  refine ⟨fun x => ?_, fun x => ?_, fun v => ?_⟩ <;>
    simp [pass_through, Dual.add, Dual.sub, stop_gradient]

/-- Summing `f(sampleᵢ) * weightᵢ` vanishes when every sample entry is zero
and `f 0 = 0`. -/
lemma wsum_eq_zero (f : ℚ → ℚ) (hf : f 0 = 0) (sample weight : List ℚ)
    (h : ∀ x ∈ sample, x = 0) : wsum f sample weight = 0 := by
  unfold wsum
  apply List.sum_eq_zero
  intro y hy
  simp only [List.mem_map] at hy
  obtain ⟨p, hp, rfl⟩ := hy
  rw [h p.1 (List.of_mem_zip hp).1, hf, zero_mul]

/-- `with_update` preserves a vanishing `sum_of_l1_vals` when the batch
samples are all zero, in both plain and EMA accumulation modes. -/
lemma with_update_l1_zero (cfg : StatsConfig) (s : Stats)
    (hs : s.sum_of_l1_vals = 0) (sample weight : List ℚ)
    (h : ∀ x ∈ sample, x = 0) :
    (with_update cfg s sample weight).sum_of_l1_vals = 0 := by
  have hb : wsum (fun x => |x|) sample weight = 0 :=
    wsum_eq_zero _ (by simp) _ _ h
  cases hcfg : cfg.ema_update_count <;> simp [with_update, hcfg, hs, hb]

/-- Folding any sequence of all-zero-sample updates keeps
`sum_of_l1_vals` at zero. -/
lemma foldl_l1_zero (cfg : StatsConfig) :
    ∀ (updates : List (List ℚ × List ℚ)),
      (∀ u ∈ updates, ∀ x ∈ u.1, x = 0) →
      ∀ s : Stats, s.sum_of_l1_vals = 0 →
        (updates.foldl (fun t u => with_update cfg t u.1 u.2) s).sum_of_l1_vals
          = 0
  | [], _, s, hs => hs
  | u :: us, h, s, hs => by
    simp only [List.foldl_cons]
    exact foldl_l1_zero cfg us (fun v hv => h v (List.mem_cons_of_mem _ hv)) _
      (with_update_l1_zero cfg s hs u.1 u.2
        (h u (List.mem_cons_self u us)))

/-- `max_dev` of a state with vanishing `sum_of_l1_vals` is zero, whether or
not any observation has been folded in. -/
lemma max_dev_of_l1_zero (s : Stats) (h : s.sum_of_l1_vals = 0) :
    max_dev s = 0 := by
  unfold max_dev
  rw [h]
  split <;> simp

/-- C9: starting from `init_stats` (so, in particular, with
`sum_of_ones = 0` before any update), after any sequence of updates whose
samples are all zero, `max_dev()` is 0 — no division error, the zero case
is an explicit guard — and the scale calibrator returns the deterministic
fallback scale 1. -/
theorem max_dev_zero_fallback (cfg : StatsConfig) (c : IntQuantConfig)
    (updates : List (List ℚ × List ℚ))
    (hzero : ∀ u ∈ updates, ∀ x ∈ u.1, x = 0) :
    max_dev (updates.foldl (fun s u => with_update cfg s u.1 u.2) init_stats)
      = 0 ∧
    calibrate (updates.foldl (fun s u => with_update cfg s u.1 u.2) init_stats)
      c = 1 := by
  have hl1 := foldl_l1_zero cfg updates hzero init_stats rfl
  have hmd := max_dev_of_l1_zero _ hl1
  refine ⟨hmd, ?_⟩
  unfold calibrate
  simp [hmd]

/-- Witness for C9: two all-zero observation batches under plain
accumulation, with an 8-bit config. -/
theorem max_dev_zero_fallback_witness :
    (∀ u ∈ [(([0, 0] : List ℚ), ([1, 1] : List ℚ)), (([0] : List ℚ), ([1] : List ℚ))],
      ∀ x ∈ u.1, x = 0) ∧
    (max_dev ([(([0, 0] : List ℚ), ([1, 1] : List ℚ)), (([0] : List ℚ), ([1] : List ℚ))].foldl
        (fun s u => with_update ⟨[0], 1, none⟩ s u.1 u.2) init_stats) = 0 ∧
    calibrate ([(([0, 0] : List ℚ), ([1, 1] : List ℚ)), (([0] : List ℚ), ([1] : List ℚ))].foldl
        (fun s u => with_update ⟨[0], 1, none⟩ s u.1 u.2) init_stats)
      ⟨8, true⟩ = 1) :=
  ⟨by decide,
   max_dev_zero_fallback ⟨[0], 1, none⟩ ⟨8, true⟩
     [([0, 0], [1, 1]), ([0], [1])] (by decide)⟩

/-- C8: calling `TensorQuantizer.update` a second time with the same
`event_count` is a no-op — the whole quantizer state (Stats accumulators,
scale, `last_update`, cached quantized variable) is exactly the state after
the first call. -/
theorem update_idempotent (cfg : StatsConfig) (c : IntQuantConfig)
    (q : TensorQuantizer) (sample weight : List ℚ) (event_count : ℤ) :
    update cfg c (update cfg c q sample weight event_count) sample weight
        event_count =
      update cfg c q sample weight event_count := by
  by_cases h : event_count = q.last_update
  · simp [update, h]
  · simp [update, h]

end Aqt
